import Mathlib

/-!
Shallow embedding of the warustatus status-bar daemon (Rust sources under
src/), covering the scheduling loop in src/main.rs and the sampler modules
in src/modules/.  Machine integers (u64, u8) are modelled as Nat; Rust's
saturating_sub and u64 subtraction on monotone counters become Nat
subtraction; f64/f32 arithmetic on the sampled values is modelled exactly
over the rationals; file-system reads and parses are passed in as explicit
environment values.
-/

/- ## src/modules/battery.rs -/

/-- Characters removed by str::trim (ASCII whitespace suffices here). -/
def trimChar (c : Char) : Bool :=
  c == ' ' || c == '\n' || c == '\t' || c == '\r'

/-- Model of str::trim. -/
def trimStr (s : String) : String :=
  String.mk (((s.toList.dropWhile trimChar).reverse.dropWhile trimChar).reverse)

/-- Value of a decimal digit character, none for a non-digit. -/
def digitVal (c : Char) : Option Nat :=
  if c.isDigit then some (c.toNat - 48) else none

/-- Decimal parse of a character list: none when empty or any non-digit. -/
def digitsToNat (l : List Char) : Option Nat :=
  match l with
  | [] => none
  | _ =>
    l.foldl
      (fun acc c =>
        match acc, digitVal c with
        | some n, some d => some (10 * n + d)
        | _, _ => none)
      (some 0)

/-- Model of `cap_str.trim().parse::<u8>()`: trim, parse decimal, reject
values that overflow u8. -/
def parseU8 (s : String) : Option Nat :=
  match digitsToNat (trimStr s).toList with
  | some n => if n ≤ 255 then some n else none
  | none => none

/-- File-system environment seen by BatteryInfo::now: whether
/sys/class/power_supply/BAT0 exists, and the contents of the capacity and
status files when readable. -/
structure BatEnv where
  present : Bool
  capFile : Option String
  statFile : Option String

/-- BatteryInfo struct of src/modules/battery.rs. -/
structure BatteryInfo where
  capacity : Nat
  status : String
deriving DecidableEq

/-- BatteryInfo::now from src/modules/battery.rs: defaults capacity 0 and
status "N/A"; if the battery path exists, read capacity (parse failure or
unreadable file falls back to 0) and map the status file through the icon
table; otherwise status is "NO BATT".  Every path returns Ok. -/
def BatteryInfo.now (env : BatEnv) : Except String BatteryInfo :=
  if env.present then
    let capacity :=
      match env.capFile with
      | some s => (parseU8 s).getD 0
      | none => 0
    let status :=
      match env.statFile with
      | some s =>
        match trimStr s with
        | "Charging" => "⚡"
        | "Discharging" => "🔋"
        | "Full" => "🔌"
        | _ => "❔"
      | none => "N/A"
    Except.ok { capacity := capacity, status := status }
  else
    Except.ok { capacity := 0, status := "NO BATT" }

/- ## src/modules/cpu.rs -/

/-- CpuLoad struct: previous idle and total jiffy counters. -/
structure CpuLoad where
  prev_idle : Nat
  prev_total : Nat
deriving DecidableEq

/-- CpuLoad::update from src/modules/cpu.rs, with the (idle, total) counters
read from /proc/stat passed in as the environment.  total_delta uses
saturating_sub (Nat subtraction); when it is zero the function returns
Ok(0.0) before touching prev_idle/prev_total or dividing; otherwise it
divides by the non-zero total_delta, clamps at 0, and replaces the stored
counters. -/
def CpuLoad.update (s : CpuLoad) (reading : Nat × Nat) : Except String ℚ × CpuLoad :=
  let idle := reading.1
  let total := reading.2
  let totalDelta := total - s.prev_total
  if totalDelta = 0 then
    (Except.ok 0, s)
  else
    let idleDelta := idle - s.prev_idle
    let usage : ℚ := 1 - (idleDelta : ℚ) / (totalDelta : ℚ)
    (Except.ok (max (usage * 100) 0), { prev_idle := idle, prev_total := total })

/-- One thermal directory entry as CpuTemp::now sees it: the entry name,
the content of its type file when readable, and the parsed value of its
temp file when readable and parsable (f32 parse modelled as a rational). -/
structure ThermEntry where
  name : String
  typeContent : Option String
  tempParsed : Option ℚ

/-- Bool test that one character list is an initial segment of another. -/
def isPrefixList : List Char → List Char → Bool
  | [], _ => true
  | _ :: _, [] => false
  | a :: as, b :: bs => a == b && isPrefixList as bs

/-- Substring search used to model str::contains. -/
def subsearch : List Char → List Char → Bool
  | pat, [] => isPrefixList pat []
  | pat, c :: rest => isPrefixList pat (c :: rest) || subsearch pat rest

/-- Model of str::contains. -/
def containsSub (s pat : String) : Bool :=
  subsearch pat.toList s.toList

/-- Model of str::starts_with. -/
def startsWithStr (s pat : String) : Bool :=
  isPrefixList pat.toList s.toList

/-- The `is_cpu_temp` test of CpuTemp::now: type file readable and
containing "x86_pkg_temp" or "cpu"; an unreadable type file counts as
not CPU (unwrap_or(false)). -/
def isCpuType (e : ThermEntry) : Bool :=
  match e.typeContent with
  | some s => containsSub s "x86_pkg_temp" || containsSub s "cpu"
  | none => false

/-- Contribution of one directory entry to the CpuTemp::now loop: the
millidegree reading divided by 1000 when the entry is a thermal_zone*
directory of CPU type with a readable, parsable temp file; none otherwise
(the loop skips it). -/
def zoneTemp (e : ThermEntry) : Option ℚ :=
  if startsWithStr e.name "thermal_zone" then
    if isCpuType e then e.tempParsed.map (fun t => t / 1000) else none
  else none

/-- CpuTemp struct of src/modules/cpu.rs. -/
structure CpuTemp where
  celsius : ℚ
deriving DecidableEq

/-- CpuTemp::now from src/modules/cpu.rs: fold the thermal directory,
tracking (max_temp, found_temp) from (0.0, false); if no reading was found
return celsius = -1.0, else the maximum. -/
def CpuTemp.now (entries : List ThermEntry) : CpuTemp :=
  let r := entries.foldl
    (fun acc e =>
      match zoneTemp e with
      | some t => (max acc.1 t, true)
      | none => acc)
    ((0 : ℚ), false)
  if r.2 then { celsius := r.1 } else { celsius := -1 }

/- ## src/modules/network.rs -/

/-- NetworkStats struct: last published rates, previous raw counters and
previous sample instant (milliseconds). -/
structure NetworkStats where
  rx_mbps : ℚ
  tx_mbps : ℚ
  last_rx : Nat
  last_tx : Nat
  last_time : Nat
deriving DecidableEq

/-- NetworkStats::update from src/modules/network.rs with the summed
/sys/class/net counters and the current instant passed in: rate is the
counter delta in MiB divided by the elapsed seconds clamped below at 0.1,
then the counters and instant are replaced. -/
def NetworkStats.update (s : NetworkStats) (rx tx now : Nat) : NetworkStats :=
  let elapsed : ℚ := ((now - s.last_time : Nat) : ℚ) / 1000
  let el := max elapsed (1 / 10)
  { rx_mbps := ((rx - s.last_rx : Nat) : ℚ) / 1048576 / el
    tx_mbps := ((tx - s.last_tx : Nat) : ℚ) / 1048576 / el
    last_rx := rx
    last_tx := tx
    last_time := now }

/- ## src/modules/memory.rs (value type only, for the slot set) -/

/-- MemoryInfo struct of src/modules/memory.rs. -/
structure MemoryInfo where
  available_mb : Nat
deriving DecidableEq

/- ## Scheduler (src/main.rs) -/

/-- The last_run table: HashMap from the static kind key to the Instant of
its last dispatch, modelled as instants in milliseconds. -/
def LastMap : Type := String → Option Nat

/-- HashMap::insert on the last_run table. -/
def updateMap (m : LastMap) (k : String) (v : Nat) : LastMap :=
  fun q => if q = k then some v else m q

/-- Scheduler::should_run from src/main.rs: deadline is the stored instant
plus Duration::from_secs(sec) (sec * 1000 ms); run when the key was never
run or now has reached the deadline; on run the table entry is set to now
immediately, before the dispatch and independent of its outcome. -/
def shouldRun (key : String) (now : Nat) (sec : Nat) (m : LastMap) : Bool × LastMap :=
  let deadline := (m key).map (fun t => t + 1000 * sec)
  let run :=
    match deadline with
    | none => true
    | some d => decide (d ≤ now)
  if run then (true, updateMap m key now) else (false, m)

/-- State of the scheduling loop: the last_run table plus a log of every
dispatch so far as (kind, start instant, finish instant), newest first.
A spawned task is outstanding at τ when start ≤ τ < finish. -/
structure SchedSt where
  last : LastMap
  dispatches : List (String × Nat × Nat)

/-- One `if self.should_run(key, now, sec) ... tokio::spawn` block of
Scheduler::run: consult should_run at the tick instant t and, when due,
record a dispatch whose duration is given by the environment oracle dur.
The time kind sends inline within the tick; its record is kept uniform. -/
def stepKind (dur : String → Nat → Nat) (t : Nat) (key : String) (sec : Nat)
    (st : SchedSt) : SchedSt :=
  let r := shouldRun key t sec st.last
  if r.1 then
    { last := r.2, dispatches := (key, t, t + dur key t) :: st.dispatches }
  else
    { last := r.2, dispatches := st.dispatches }

/-- The cadence table of Scheduler::run, in source order: should_run is
called with "bat" 60, "cpu" 10, "mem" 10, "temp" 30, "net" 2, "time" 60. -/
def kinds : List (String × Nat) :=
  [("bat", 60), ("cpu", 10), ("mem", 10), ("temp", 30), ("net", 2), ("time", 60)]

/-- interval(Duration::from_millis(500)). -/
def baseTickMs : Nat := 500

/-- One iteration of the Scheduler::run loop body at tick instant t. -/
def tickAt (dur : String → Nat → Nat) (t : Nat) (st : SchedSt) : SchedSt :=
  kinds.foldl (fun s kc => stepKind dur t kc.1 kc.2 s) st

/-- Scheduler state at startup: empty HashMap, nothing dispatched. -/
def initSched : SchedSt :=
  { last := fun _ => none, dispatches := [] }

/-- The scheduling loop run for n base ticks; the interval fires at
instants 0, 500, 1000, ... . -/
def schedRun (dur : String → Nat → Nat) (n : Nat) : SchedSt :=
  (List.range n).foldl (fun s i => tickAt dur (baseTickMs * i) s) initSched

/-- Number of dispatches of kind k still in flight at instant τ. -/
def outstanding (k : String) (τ : Nat) (st : SchedSt) : Nat :=
  ((st.dispatches.filter (fun p => p.1 == k)).filter
    (fun p => decide (p.2.1 ≤ τ) && decide (τ < p.2.2))).length

/-- Projection of the scheduler state onto one kind: its last_run entry and
its own dispatch records. -/
def projK (k : String) (st : SchedSt) : Option Nat × List (String × Nat × Nat) :=
  (st.last k, st.dispatches.filter (fun p => p.1 == k))

/-- Single-kind abstraction of one tick for kind k with cadence c seconds:
exactly the should_run gate followed by the dispatch record. -/
def kstep (c : Nat) (durK : Nat → Nat) (k : String) (t : Nat)
    (s : Option Nat × List (String × Nat × Nat)) :
    Option Nat × List (String × Nat × Nat) :=
  match s.1 with
  | none => (some t, (k, t, t + durK t) :: s.2)
  | some u =>
    if u + 1000 * c ≤ t then (some t, (k, t, t + durK t) :: s.2) else s

/-- Invariant of the single-kind projection: every record's finish is its
start plus its duration, starts are strictly separated by at least the
cadence (newest first), and the last_run entry bounds every start. -/
def KInv (c : Nat) (durK : Nat → Nat)
    (s : Option Nat × List (String × Nat × Nat)) : Prop :=
  (∀ p ∈ s.2, p.2.2 = p.2.1 + durK p.2.1)
  ∧ s.2.Pairwise (fun a b => b.2.1 + 1000 * c ≤ a.2.1)
  ∧ (match s.1 with
     | none => s.2 = []
     | some u => ∀ p ∈ s.2, p.2.1 ≤ u)

/- ## Dispatch result handling (the spawned task bodies in Scheduler::run) -/

/-- Effect of one completed dispatch on its slot, seen from the
`if let Ok(Ok(data)) ... tx.send ... notify_one` body: on Ok the value is
published and the signal raised; on Err nothing is sent, nothing is raised,
and nothing is written to any error sink (the components: new slot value,
whether notify_one ran, log lines emitted). -/
def dispatchOutcome (α : Type) (res : Except String α) (slot : α) :
    α × Bool × List String :=
  match res with
  | Except.ok v => (v, true, [])
  | Except.error _ => (slot, false, [])

/-- Observable events of one dispatch body, in program order. -/
inductive DEvent (α : Type) where
  | publishEv (v : α)
  | raiseEv
deriving DecidableEq

/-- Event trace of the success path `if tx.send(data).is_ok() {
notify.notify_one(); }` preceded by the Ok/Err match: a publish followed by
a raise when the send succeeds; nothing otherwise. -/
def dispatchTrace (α : Type) (sendOk : Bool) (res : Except String α) :
    List (DEvent α) :=
  match res with
  | Except.error _ => []
  | Except.ok v => if sendOk then [DEvent.publishEv v, DEvent.raiseEv] else []

/- ## ChangeSignal (tokio::sync::Notify as used in src/main.rs) -/

/-- Permit state of the Notify: notify_one stores at most a single permit,
so repeated raises before a wait coalesce instead of counting. -/
def notifyRaise (_s : Bool) : Bool := true

/-- The six watch channels read by the print task, one slot per kind. -/
structure Slots where
  bat : BatteryInfo
  cpuLoad : ℚ
  mem : MemoryInfo
  temp : CpuTemp
  net : ℚ × ℚ
  timeStr : String
deriving DecidableEq

/-- One turn of the print task: notified().await consumes the permit when
present and the task then borrows the current value of every slot; with no
permit it stays suspended. -/
def printOnWake (s : Bool) (σ : Slots) : Option Slots × Bool :=
  if s then (some σ, false) else (none, s)

/- ## The clone-per-dispatch handling of the stateful monitors in
Scheduler::run -/

/-- The "cpu" dispatch of Scheduler::run: `let mut monitor =
self.cpu_monitor.clone()` is moved into the spawned task, updated there,
and dropped with the task; the scheduler keeps its own copy unchanged.
Returns (scheduler-held state afterwards, value the task sends). -/
def cpuDispatch (schedMonitor : CpuLoad) (reading : Nat × Nat) :
    CpuLoad × Except String ℚ :=
  let monitor := schedMonitor
  let r := CpuLoad.update monitor reading
  (schedMonitor, r.1)

/-- The "net" dispatch of Scheduler::run: same clone-and-drop pattern with
self.net_monitor; the task sends (rx_mbps, tx_mbps) of the updated clone. -/
def netDispatch (schedMonitor : NetworkStats) (rx tx now : Nat) :
    NetworkStats × (ℚ × ℚ) :=
  let monitor := NetworkStats.update schedMonitor rx tx now
  (schedMonitor, (monitor.rx_mbps, monitor.tx_mbps))

/-- Equality of Except values is decidable when both components are. -/
instance exceptDecEq {ε α : Type} [DecidableEq ε] [DecidableEq α] : DecidableEq (Except ε α) :=
  fun x y =>
    match x, y with
    | Except.ok a, Except.ok b =>
      if h : a = b then isTrue (by rw [h]) else isFalse (by simp [h])
    | Except.error e, Except.error f =>
      if h : e = f then isTrue (by rw [h]) else isFalse (by simp [h])
    | Except.ok _, Except.error _ => isFalse (by simp)
    | Except.error _, Except.ok _ => isFalse (by simp)

set_option maxRecDepth 40000

/- ## Helper lemmas about should_run -/

theorem shouldRun_eq_none {m : LastMap} {key : String} (now sec : Nat)
    (h : m key = none) : shouldRun key now sec m = (true, updateMap m key now) := by
  unfold shouldRun
  rw [h]
  rfl

theorem shouldRun_eq_some_due {m : LastMap} {key : String} {t : Nat} {now sec : Nat}
    (h : m key = some t) (hle : t + 1000 * sec ≤ now) :
    shouldRun key now sec m = (true, updateMap m key now) := by
  unfold shouldRun
  rw [h]
  simp [hle]

theorem shouldRun_eq_some_wait {m : LastMap} {key : String} {t : Nat} {now sec : Nat}
    (h : m key = some t) (hle : ¬ t + 1000 * sec ≤ now) :
    shouldRun key now sec m = (false, m) := by
  unfold shouldRun
  rw [h]
  simp [hle]

theorem shouldRun_fst_none {m : LastMap} {key : String} (now sec : Nat)
    (h : m key = none) : (shouldRun key now sec m).1 = true := by
  rw [shouldRun_eq_none now sec h]

theorem shouldRun_fst_some {m : LastMap} {key : String} {t : Nat} (now sec : Nat)
    (h : m key = some t) :
    (shouldRun key now sec m).1 = decide (t + 1000 * sec ≤ now) := by
  by_cases hle : t + 1000 * sec ≤ now
  · rw [shouldRun_eq_some_due h hle]
    simp [hle]
  · rw [shouldRun_eq_some_wait h hle]
    simp [hle]

theorem shouldRun_snd_run {m : LastMap} {key : String} {now sec : Nat}
    (h : (shouldRun key now sec m).1 = true) :
    (shouldRun key now sec m).2 = updateMap m key now := by
  cases hm : m key with
  | none => rw [shouldRun_eq_none now sec hm]
  | some t =>
    by_cases hle : t + 1000 * sec ≤ now
    · rw [shouldRun_eq_some_due hm hle]
    · rw [shouldRun_eq_some_wait hm hle] at h
      simp at h

theorem shouldRun_snd_stay {m : LastMap} {key : String} {now sec : Nat}
    (h : (shouldRun key now sec m).1 = false) :
    (shouldRun key now sec m).2 = m := by
  cases hm : m key with
  | none =>
    rw [shouldRun_eq_none now sec hm] at h
    simp at h
  | some t =>
    by_cases hle : t + 1000 * sec ≤ now
    · rw [shouldRun_eq_some_due hm hle] at h
      simp at h
    · rw [shouldRun_eq_some_wait hm hle]

/- ## C3: the due test and the immediate last_run update -/

/-- C3: should_run returns true exactly when the key never ran or the
stored instant is at least sec seconds old; on true the last_run entry is
set to the dispatch instant right away (the table is written inside
should_run itself, before the sample runs and regardless of its outcome),
and on false the table is untouched. -/
theorem shouldRun_spec (key : String) (now sec : Nat) (m : LastMap) :
    ((shouldRun key now sec m).1 = true ↔
      m key = none ∨ ∃ t, m key = some t ∧ t + 1000 * sec ≤ now)
    ∧ ((shouldRun key now sec m).1 = true →
      (shouldRun key now sec m).2 key = some now)
    ∧ ((shouldRun key now sec m).1 = false → (shouldRun key now sec m).2 = m)
    ∧ (∀ t, m key = some t → t ≤ now →
      ((shouldRun key now sec m).1 = true ↔ 1000 * sec ≤ now - t)) := by
  refine ⟨?_, ?_, shouldRun_snd_stay, ?_⟩
  · cases hm : m key with
    | none => simp [shouldRun_fst_none now sec hm, hm]
    | some t =>
      rw [shouldRun_fst_some now sec hm]
      simp only [hm, decide_eq_true_eq]
      constructor
      · intro h; exact Or.inr ⟨t, rfl, h⟩
      · rintro (h | ⟨u, hu, h⟩)
        · cases h
        · cases hu; exact h
  · intro h
    rw [shouldRun_snd_run h]
    simp [updateMap]
  · intro t ht hle
    rw [shouldRun_fst_some now sec ht]
    simp only [decide_eq_true_eq]
    omega

/-- Witness for C3 at a concrete table: "cpu" last ran at instant 1000,
cadence 10 s, now 11000 ms, so it is due and the entry becomes 11000. -/
theorem shouldRun_spec_witness :
    (shouldRun "cpu" 11000 10 (fun _ => some 1000)).1 = true
    ∧ (shouldRun "cpu" 11000 10 (fun _ => some 1000)).2 "cpu" = some 11000 := by
  have h := shouldRun_spec "cpu" 11000 10 (fun _ => some 1000)
  have h1 : (shouldRun "cpu" 11000 10 (fun _ => some 1000)).1 = true :=
    h.1.mpr (Or.inr ⟨1000, rfl, by norm_num⟩)
  exact ⟨h1, h.2.1 h1⟩

/- ## C2: the scheduler never keeps the state produced by a sample -/

/-- C2 (code bug): the dispatch clones the stateful monitor into the
spawned task and drops the updated clone, so the scheduler-held sampler
state is unchanged by every dispatch; concretely, starting from startup
counters (100, 200), after a successful cpu sample at (150, 300) the
scheduler still holds (100, 200), and the next sample at (380, 600)
computes 30 (delta against startup) instead of the 70/3 that consuming and
replacing the state (as the spec requires) would give. -/
theorem cpu_monitor_state_dropped_at_dispatch :
    (∀ (s : CpuLoad) (r : Nat × Nat), (cpuDispatch s r).1 = s)
    ∧ (∀ (s : NetworkStats) (rx tx now : Nat), (netDispatch s rx tx now).1 = s)
    ∧ (cpuDispatch ⟨100, 200⟩ (150, 300)).2 = Except.ok 50
    ∧ (cpuDispatch (cpuDispatch ⟨100, 200⟩ (150, 300)).1 (380, 600)).2 = Except.ok 30
    ∧ (CpuLoad.update (CpuLoad.update ⟨100, 200⟩ (150, 300)).2 (380, 600)).1 =
        Except.ok (70 / 3)
    ∧ (30 : ℚ) ≠ 70 / 3 := by
  refine ⟨fun s r => rfl, fun s rx tx now => rfl, ?_, ?_, ?_, by norm_num⟩
  · simp only [cpuDispatch, CpuLoad.update]
    norm_num [max_def]
  · simp only [cpuDispatch, CpuLoad.update]
    norm_num [max_def]
  · simp only [CpuLoad.update]
    norm_num [max_def]

/- ## C9: zero total delta short-circuits before the division -/

/-- C9: when the saturating total delta is zero CpuLoad::update returns
Ok(0.0) and leaves prev_idle/prev_total untouched; in every other case the
update divides by a total delta that is provably non-zero as a rational. -/
theorem cpuload_zero_delta_safe :
    (∀ (s : CpuLoad) (idle total : Nat), total - s.prev_total = 0 →
      CpuLoad.update s (idle, total) = (Except.ok 0, s))
    ∧ (∀ (s : CpuLoad) (idle total : Nat), total - s.prev_total ≠ 0 →
      CpuLoad.update s (idle, total) =
        (Except.ok
          (max ((1 - ((idle - s.prev_idle : Nat) : ℚ) / ((total - s.prev_total : Nat) : ℚ)) * 100) 0),
         ⟨idle, total⟩)
      ∧ ((total - s.prev_total : Nat) : ℚ) ≠ 0) := by
  constructor
  · intro s idle total h
    simp [CpuLoad.update, h]
  · intro s idle total h
    refine ⟨by simp [CpuLoad.update, h], ?_⟩
    exact_mod_cast h

/-- Witness for C9: counters moving from total 5 to total 3 (saturating
delta 0) return Ok(0) with the state kept; a real delta of 100 divides by
it and yields 50%. -/
theorem cpuload_zero_delta_safe_witness :
    CpuLoad.update ⟨0, 5⟩ (2, 3) = (Except.ok 0, ⟨0, 5⟩)
    ∧ CpuLoad.update ⟨0, 100⟩ (50, 200) = (Except.ok 50, ⟨50, 200⟩) := by
  constructor
  · exact cpuload_zero_delta_safe.1 ⟨0, 5⟩ 2 3 (by decide)
  · have h := (cpuload_zero_delta_safe.2 ⟨0, 100⟩ 50 200 (by decide)).1
    rw [h]
    norm_num [max_def]

/- ## C10: BatteryInfo::now never returns Err -/

/-- C10: every path of BatteryInfo::now returns Ok — a missing battery
path yields the NO BATT sentinel, an unreadable or unparsable capacity
file falls back to 0, and an unreadable status file keeps the "N/A"
default — so the Err side of the Result is unreachable. -/
theorem battery_now_total_ok (env : BatEnv) :
    ∃ b : BatteryInfo,
      BatteryInfo.now env = Except.ok b
      ∧ (env.present = false → b = ⟨0, "NO BATT"⟩)
      ∧ (env.capFile = none → b.capacity = 0)
      ∧ (∀ s, env.capFile = some s → parseU8 s = none → b.capacity = 0)
      ∧ (env.present = true → env.statFile = none → b.status = "N/A") := by
  cases hp : env.present
  · refine ⟨⟨0, "NO BATT"⟩, by simp [BatteryInfo.now, hp], fun _ => rfl, fun _ => rfl,
      fun _ _ _ => rfl, fun h _ => by simp [hp] at h⟩
  · refine ⟨⟨match env.capFile with
        | some s => (parseU8 s).getD 0
        | none => 0,
      match env.statFile with
        | some s =>
          match trimStr s with
          | "Charging" => "⚡"
          | "Discharging" => "🔋"
          | "Full" => "🔌"
          | _ => "❔"
        | none => "N/A"⟩,
      by simp [BatteryInfo.now, hp], fun h => by simp [hp] at h, ?_, ?_, ?_⟩
    · intro hc
      simp [hc]
    · intro s hc hparse
      simp [hc, hparse]
    · intro _ hs
      simp [hs]

/-- Witness for C10: battery present, garbage capacity file, no status
file — still Ok. -/
theorem battery_now_total_ok_witness :
    ∃ b, BatteryInfo.now ⟨true, some "abc", none⟩ = Except.ok b := by
  obtain ⟨b, h, _⟩ := battery_now_total_ok ⟨true, some "abc", none⟩
  exact ⟨b, h⟩

/- ## C4: failed samples — silent, slot retained, cadence kept -/

/-- C4 counterexample: at a concrete failed dispatch (an io error with 5
in the slot) the error path of the task body emits no log line at all —
the emitted log list is empty, refuting the claim that the failure is
reported to an external error sink — while the slot keeps its prior value
and no notification is raised. -/
theorem sampler_error_not_logged :
    dispatchOutcome ℚ (Except.error "permission denied") 5 = (5, false, []) := rfl

/-- Helper: folding any run of failed dispatch results over a slot leaves
the slot unchanged. -/
theorem dispatch_fold_errors (α : Type) (s : α) :
    ∀ rs : List (Except String α), (∀ r ∈ rs, ∃ e, r = Except.error e) →
      rs.foldl (fun acc r => (dispatchOutcome α r acc).1) s = s := by
  intro rs
  induction rs generalizing s with
  | nil => intro _; rfl
  | cons r rest ih =>
    intro h
    obtain ⟨e, rfl⟩ := h r (List.mem_cons_self r rest)
    simpa using ih s fun q hq => h q (List.mem_cons_of_mem _ hq)

/-- C4 (amended): when a sampler invocation fails, the dispatch body
publishes nothing (the slot keeps its prior value), raises no
notification, and writes nothing to any error sink (the failure is
silently dropped — there is no logging); N consecutive failures leave the
slot unchanged; and since should_run records the dispatch instant up
front, the due-check keeps firing once per cadence regardless of results
— over 11 base ticks "net" is dispatched exactly at 0, 2000 and 4000 ms. -/
theorem sampler_error_retains_slot_and_cadence :
    (∀ (α : Type) (e : String) (s : α),
      dispatchOutcome α (Except.error e) s = (s, false, []))
    ∧ (∀ (α : Type) (s : α) (rs : List (Except String α)),
      (∀ r ∈ rs, ∃ e, r = Except.error e) →
      rs.foldl (fun acc r => (dispatchOutcome α r acc).1) s = s)
    ∧ ((schedRun (fun _ _ => 0) 11).dispatches.filter
        (fun p => p.1 == "net")).map (fun p => p.2.1) = [4000, 2000, 0] :=
  ⟨fun _ _ _ => rfl, fun α s rs h => dispatch_fold_errors α s rs h, by decide⟩

/-- Witness for C4 at a concrete run of two failures over slot 7. -/
theorem sampler_error_retains_slot_witness :
    [Except.error "a", Except.error "b"].foldl
      (fun acc r => (dispatchOutcome ℚ r acc).1) 7 = 7 := by
  refine sampler_error_retains_slot_and_cadence.2.1 ℚ 7 _ ?_
  intro r hr
  fin_cases hr
  · exact ⟨"a", rfl⟩
  · exact ⟨"b", rfl⟩

/- ## C5: the kind enumeration and cadence table -/

/-- C5 counterexample: the scheduler has no "ip" kind at all, and the
battery kind is dispatched with cadence 60 s, not the claimed 3600 s. -/
theorem kind_table_mismatch :
    ("ip" ∉ kinds.map Prod.fst)
    ∧ (("bat", 3600) ∉ kinds)
    ∧ ("bat", 60) ∈ kinds := by
  decide

/-- Helper: a dispatch recorded by one tick either predates the tick or
carries one of the keys the tick iterates over. -/
theorem dispatch_mem_foldl (l : List (String × Nat)) :
    ∀ (dur : String → Nat → Nat) (t : Nat) (st : SchedSt) (p : String × Nat × Nat),
      p ∈ ((l.foldl (fun s kc => stepKind dur t kc.1 kc.2 s) st).dispatches) →
      p ∈ st.dispatches ∨ p.1 ∈ l.map Prod.fst := by
  induction l with
  | nil => intro dur t st p h; exact Or.inl h
  | cons kc rest ih =>
    intro dur t st p h
    rw [List.foldl_cons] at h
    rcases ih dur t _ p h with h2 | h2
    · unfold stepKind at h2
      by_cases hr : (shouldRun kc.1 t kc.2 st.last).1 <;> simp [hr] at h2
      · rcases h2 with h3 | h3
        · subst h3
          exact Or.inr (by simp)
        · exact Or.inl h3
      · exact Or.inl h2
    · exact Or.inr (by simp [h2])

/-- Helper: unrolling one tick off the end of a run. -/
theorem schedRun_succ (dur : String → Nat → Nat) (n : Nat) :
    schedRun dur (n + 1) = tickAt dur (baseTickMs * n) (schedRun dur n) := by
  unfold schedRun
  rw [List.range_succ, List.foldl_append]
  rfl

/-- Helper: every dispatch the loop ever records is for one of the six
kind keys of the cadence table. -/
theorem dispatch_kind_closed :
    ∀ (dur : String → Nat → Nat) (n : Nat) (p : String × Nat × Nat),
      p ∈ (schedRun dur n).dispatches → p.1 ∈ kinds.map Prod.fst := by
  intro dur n
  induction n with
  | zero =>
    intro p h
    simp [schedRun, initSched] at h
  | succ n ih =>
    intro p h
    rw [schedRun_succ] at h
    unfold tickAt at h
    rcases dispatch_mem_foldl kinds dur (baseTickMs * n) (schedRun dur n) p h with h2 | h2
    · exact ih p h2
    · exact h2

/-- C5 (amended): the cadence table has exactly the six kinds battery,
CPU load, memory, CPU temperature, network rate and clock, with cadences
60, 10, 10, 30, 2 and 60 seconds, each key occurring once (one slot and
one last_run entry per kind), on a 500 ms base tick; and every dispatch
the loop records is for one of those six kinds (the enumeration is
closed — in particular there is no IP kind). -/
theorem kind_table_spec :
    kinds.map Prod.fst = ["bat", "cpu", "mem", "temp", "net", "time"]
    ∧ kinds.map Prod.snd = [60, 10, 10, 30, 2, 60]
    ∧ (kinds.map Prod.fst).Nodup
    ∧ baseTickMs = 500
    ∧ ∀ (dur : String → Nat → Nat) (n : Nat) (p : String × Nat × Nat),
        p ∈ (schedRun dur n).dispatches → p.1 ∈ kinds.map Prod.fst :=
  ⟨rfl, rfl, by decide, rfl, dispatch_kind_closed⟩

/-- Witness for C5: the very first tick dispatches "bat", and "bat" is in
the closed kind enumeration. -/
theorem kind_table_spec_witness :
    ("bat", 0, 0) ∈ (schedRun (fun _ _ => 0) 1).dispatches
    ∧ "bat" ∈ kinds.map Prod.fst :=
  ⟨by decide, kind_table_spec.2.2.2.2 (fun _ _ => 0) 1 ("bat", 0, 0) (by decide)⟩

/- ## C6: coalescing of the change signal -/

/-- C6: M ≥ 1 notify_one calls between two waits of the single consumer
store one permit in total (raising is idempotent on the Bool permit, so
pending notifications coalesce instead of being counted or queued); the
consumer then wakes exactly once, reading the slot state current at that
wake, and a further wait without new raises does not wake again. -/
theorem signal_coalesce (M : Nat) (σ : Slots) (s0 : Bool) (hM : 1 ≤ M) :
    printOnWake (notifyRaise^[M] s0) σ = (some σ, false)
    ∧ printOnWake ((printOnWake (notifyRaise^[M] s0) σ).2) σ = (none, false) := by
  obtain ⟨m, rfl⟩ := Nat.exists_eq_add_of_le hM
  have h : notifyRaise^[1 + m] s0 = true := by
    rw [Nat.add_comm, Function.iterate_succ_apply']
    rfl
  rw [h]
  exact ⟨rfl, rfl⟩

/-- Witness for C6: three raises before the wait, starting with no
permit, on a concrete slot state. -/
theorem signal_coalesce_witness :
    printOnWake (notifyRaise^[3] false) ⟨⟨0, "N/A"⟩, 0, ⟨0⟩, ⟨0⟩, (0, 0), ""⟩ =
      (some ⟨⟨0, "N/A"⟩, 0, ⟨0⟩, ⟨0⟩, (0, 0), ""⟩, false)
    ∧ printOnWake ((printOnWake (notifyRaise^[3] false)
        ⟨⟨0, "N/A"⟩, 0, ⟨0⟩, ⟨0⟩, (0, 0), ""⟩).2)
        ⟨⟨0, "N/A"⟩, 0, ⟨0⟩, ⟨0⟩, (0, 0), ""⟩ = (none, false) :=
  signal_coalesce 3 ⟨⟨0, "N/A"⟩, 0, ⟨0⟩, ⟨0⟩, (0, 0), ""⟩ false (by decide)

/- ## C7: publish strictly before raise, raise only after a publish -/

/-- C7: in the dispatch body the raise event occurs only when the sample
succeeded and the send succeeded, and then the trace is exactly a publish
of the new value followed by the raise — the signal is never raised for a
dispatch whose publish did not happen. -/
theorem raise_only_after_publish (α : Type) (sendOk : Bool) (res : Except String α)
    (h : DEvent.raiseEv ∈ dispatchTrace α sendOk res) :
    ∃ v, res = Except.ok v ∧ sendOk = true
      ∧ dispatchTrace α sendOk res = [DEvent.publishEv v, DEvent.raiseEv] := by
  cases res with
  | error e => simp [dispatchTrace] at h
  | ok v =>
    cases sendOk with
    | false => simp [dispatchTrace] at h
    | true => exact ⟨v, rfl, rfl, rfl⟩

/-- Witness for C7 at a concrete successful dispatch publishing 1. -/
theorem raise_only_after_publish_witness :
    ∃ v, (Except.ok 1 : Except String ℚ) = Except.ok v ∧ true = true
      ∧ dispatchTrace ℚ true (Except.ok 1) = [DEvent.publishEv v, DEvent.raiseEv] :=
  raise_only_after_publish ℚ true (Except.ok 1) (by simp [dispatchTrace])

/- ## C8: unavailable sources yield sentinels, not errors -/

/-- Helper: the CpuTemp::now fold keeps its accumulator across entries
that contribute no reading. -/
theorem cputemp_fold_skip :
    ∀ (entries : List ThermEntry) (acc : ℚ × Bool),
      (∀ e ∈ entries, zoneTemp e = none) →
      entries.foldl
        (fun acc e =>
          match zoneTemp e with
          | some t => (max acc.1 t, true)
          | none => acc) acc = acc := by
  intro entries
  induction entries with
  | nil => intro acc _; rfl
  | cons e rest ih =>
    intro acc h
    rw [List.foldl_cons, h e (List.mem_cons_self e rest)]
    exact ih acc fun q hq => h q (List.mem_cons_of_mem e hq)

/-- C8: when the OS resource is absent the sampler returns its sentinel
rather than an error — BatteryInfo::now returns Ok with status "NO BATT"
when the BAT0 path does not exist, and CpuTemp::now returns celsius = -1.0
when no directory entry is a CPU thermal zone with a readable reading. -/
theorem unavailable_source_sentinels :
    (∀ env : BatEnv, env.present = false →
      BatteryInfo.now env = Except.ok ⟨0, "NO BATT"⟩)
    ∧ (∀ entries : List ThermEntry, (∀ e ∈ entries, zoneTemp e = none) →
      CpuTemp.now entries = ⟨-1⟩) := by
  constructor
  · intro env h
    simp [BatteryInfo.now, h]
  · intro entries h
    unfold CpuTemp.now
    rw [cputemp_fold_skip entries ((0 : ℚ), false) h]
    rfl

/-- Witness for C8: no battery path; a thermal directory whose only
entries are a non-thermal_zone name and a non-CPU zone. -/
theorem unavailable_source_sentinels_witness :
    BatteryInfo.now ⟨false, none, none⟩ = Except.ok ⟨0, "NO BATT"⟩
    ∧ CpuTemp.now [⟨"cooling_device0", none, none⟩,
        ⟨"thermal_zone0", some "acpitz", some 45000⟩] = ⟨-1⟩ := by
  constructor
  · exact unavailable_source_sentinels.1 ⟨false, none, none⟩ rfl
  · refine unavailable_source_sentinels.2 _ ?_
    intro e he
    fin_cases he
    · rfl
    · rfl

/- ## C1: overlap of dispatches of one kind -/

/-- C1 counterexample: with a "net" sample lasting 3000 ms (longer than
its 2 s cadence) and every other sample instantaneous, after five base
ticks the loop has launched a second "net" task at instant 2000 while the
one launched at instant 0 (finishing at 3000) is still in flight: two
dispatches of the same kind are outstanding at instant 2000. -/
theorem net_overlap_counterexample :
    outstanding "net" 2000
      (schedRun (fun k _ => if k = "net" then 3000 else 0) 5) = 2 := by
  decide

/- ## C1 (amended): dispatch starts of one kind are at least a cadence
apart, so tasks overlap only when a sample outlasts its cadence -/

/-- Helper: the tick body when should_run fires. -/
theorem stepKind_run {dur : String → Nat → Nat} {t : Nat} {key : String}
    {sec : Nat} {st : SchedSt} (h : (shouldRun key t sec st.last).1 = true) :
    stepKind dur t key sec st =
      { last := (shouldRun key t sec st.last).2,
        dispatches := (key, t, t + dur key t) :: st.dispatches } := by
  unfold stepKind
  simp [h]

/-- Helper: the tick body when should_run declines. -/
theorem stepKind_skip {dur : String → Nat → Nat} {t : Nat} {key : String}
    {sec : Nat} {st : SchedSt} (h : (shouldRun key t sec st.last).1 = false) :
    stepKind dur t key sec st =
      { last := (shouldRun key t sec st.last).2, dispatches := st.dispatches } := by
  unfold stepKind
  simp [h]

/-- Helper: a tick step for a different key leaves a kind's projection
alone — should_run only writes its own key and the new dispatch record
carries the other key. -/
theorem projK_stepKind_ne {k key : String} (h : k ≠ key)
    (dur : String → Nat → Nat) (t sec : Nat) (st : SchedSt) :
    projK k (stepKind dur t key sec st) = projK k st := by
  have hbeq : ((key, t, t + dur key t).1 == k) = false := by
    simp [Ne.symm h]
  by_cases hr : (shouldRun key t sec st.last).1 = true
  · rw [stepKind_run hr]
    unfold projK
    rw [shouldRun_snd_run hr]
    congr 1
    · unfold updateMap
      simp [h]
    · simp [List.filter_cons, hbeq]
  · rw [Bool.not_eq_true] at hr
    rw [stepKind_skip hr]
    unfold projK
    rw [shouldRun_snd_stay hr]

/-- Helper: a tick step for a kind's own key acts on its projection
exactly as the single-kind abstraction kstep. -/
theorem projK_stepKind_self (dur : String → Nat → Nat) (t : Nat) (key : String)
    (sec : Nat) (st : SchedSt) :
    projK key (stepKind dur t key sec st) = kstep sec (dur key) key t (projK key st) := by
  have hbeq : ((key, t, t + dur key t).1 == key) = true := by simp
  cases hm : st.last key with
  | none =>
    have hr : (shouldRun key t sec st.last).1 = true := shouldRun_fst_none t sec hm
    rw [stepKind_run hr]
    unfold projK kstep
    simp only [hm]
    rw [shouldRun_snd_run hr]
    congr 1
    · unfold updateMap
      simp
    · simp [List.filter_cons, hbeq]
  | some u =>
    by_cases hle : u + 1000 * sec ≤ t
    · have hr : (shouldRun key t sec st.last).1 = true := by
        rw [shouldRun_fst_some t sec hm]
        exact decide_eq_true hle
      rw [stepKind_run hr]
      unfold projK kstep
      simp only [hm]
      rw [if_pos hle, shouldRun_snd_run hr]
      congr 1
      · unfold updateMap
        simp
      · simp [List.filter_cons, hbeq]
    · have hr : (shouldRun key t sec st.last).1 = false := by
        rw [shouldRun_fst_some t sec hm]
        simpa using hle
      rw [stepKind_skip hr]
      unfold projK kstep
      simp only [hm]
      rw [if_neg hle, shouldRun_snd_stay hr, hm]

/-- Helper: one whole tick acts on the projection of any kind of the
cadence table as one kstep with that kind's cadence. -/
theorem projK_tickAt {k : String} {c : Nat} (hin : (k, c) ∈ kinds)
    (dur : String → Nat → Nat) (t : Nat) (st : SchedSt) :
    projK k (tickAt dur t st) = kstep c (dur k) k t (projK k st) := by
  have hunroll : tickAt dur t st =
      stepKind dur t "time" 60 (stepKind dur t "net" 2 (stepKind dur t "temp" 30
        (stepKind dur t "mem" 10 (stepKind dur t "cpu" 10
          (stepKind dur t "bat" 60 st))))) := rfl
  simp only [kinds, List.mem_cons, List.not_mem_nil, or_false, Prod.mk.injEq] at hin
  rw [hunroll]
  rcases hin with ⟨rfl, rfl⟩ | ⟨rfl, rfl⟩ | ⟨rfl, rfl⟩ | ⟨rfl, rfl⟩ | ⟨rfl, rfl⟩ | ⟨rfl, rfl⟩
  · rw [projK_stepKind_ne (show ("bat" : String) ≠ "time" by decide),
      projK_stepKind_ne (show ("bat" : String) ≠ "net" by decide),
      projK_stepKind_ne (show ("bat" : String) ≠ "temp" by decide),
      projK_stepKind_ne (show ("bat" : String) ≠ "mem" by decide),
      projK_stepKind_ne (show ("bat" : String) ≠ "cpu" by decide),
      projK_stepKind_self]
  · rw [projK_stepKind_ne (show ("cpu" : String) ≠ "time" by decide),
      projK_stepKind_ne (show ("cpu" : String) ≠ "net" by decide),
      projK_stepKind_ne (show ("cpu" : String) ≠ "temp" by decide),
      projK_stepKind_ne (show ("cpu" : String) ≠ "mem" by decide),
      projK_stepKind_self,
      projK_stepKind_ne (show ("cpu" : String) ≠ "bat" by decide)]
  · rw [projK_stepKind_ne (show ("mem" : String) ≠ "time" by decide),
      projK_stepKind_ne (show ("mem" : String) ≠ "net" by decide),
      projK_stepKind_ne (show ("mem" : String) ≠ "temp" by decide),
      projK_stepKind_self,
      projK_stepKind_ne (show ("mem" : String) ≠ "cpu" by decide),
      projK_stepKind_ne (show ("mem" : String) ≠ "bat" by decide)]
  · rw [projK_stepKind_ne (show ("temp" : String) ≠ "time" by decide),
      projK_stepKind_ne (show ("temp" : String) ≠ "net" by decide),
      projK_stepKind_self,
      projK_stepKind_ne (show ("temp" : String) ≠ "mem" by decide),
      projK_stepKind_ne (show ("temp" : String) ≠ "cpu" by decide),
      projK_stepKind_ne (show ("temp" : String) ≠ "bat" by decide)]
  · rw [projK_stepKind_ne (show ("net" : String) ≠ "time" by decide),
      projK_stepKind_self,
      projK_stepKind_ne (show ("net" : String) ≠ "temp" by decide),
      projK_stepKind_ne (show ("net" : String) ≠ "mem" by decide),
      projK_stepKind_ne (show ("net" : String) ≠ "cpu" by decide),
      projK_stepKind_ne (show ("net" : String) ≠ "bat" by decide)]
  · rw [projK_stepKind_self,
      projK_stepKind_ne (show ("time" : String) ≠ "net" by decide),
      projK_stepKind_ne (show ("time" : String) ≠ "temp" by decide),
      projK_stepKind_ne (show ("time" : String) ≠ "mem" by decide),
      projK_stepKind_ne (show ("time" : String) ≠ "cpu" by decide),
      projK_stepKind_ne (show ("time" : String) ≠ "bat" by decide)]

/-- Helper: the single-kind invariant is preserved by every kstep. -/
theorem KInv_kstep (c : Nat) (durK : Nat → Nat) (k : String) (t : Nat)
    (s : Option Nat × List (String × Nat × Nat)) (h : KInv c durK s) :
    KInv c durK (kstep c durK k t s) := by
  obtain ⟨hdur, hpw, hlast⟩ := h
  unfold kstep
  cases hs : s.1 with
  | none =>
    have hnil : s.2 = [] := by
      simpa only [hs] using hlast
    simp only [hs]
    rw [hnil]
    refine ⟨by simp, by simp, by simp⟩
  | some u =>
    simp only [hs] at hlast
    simp only [hs]
    by_cases hle : u + 1000 * c ≤ t
    · rw [if_pos hle]
      refine ⟨?_, ?_, ?_⟩
      · intro p hp
        rcases List.mem_cons.mp hp with rfl | hp2
        · rfl
        · exact hdur p hp2
      · rw [List.pairwise_cons]
        refine ⟨?_, hpw⟩
        intro p hp
        have := hlast p hp
        show p.2.1 + 1000 * c ≤ t
        omega
      · intro p hp
        rcases List.mem_cons.mp hp with rfl | hp2
        · exact Nat.le_refl t
        · have := hlast p hp2
          omega
    · rw [if_neg hle]
      exact ⟨hdur, hpw, by simp only [hs]; exact hlast⟩

/-- Helper: the single-kind invariant holds along every run. -/
theorem KInv_schedRun {k : String} {c : Nat} (hin : (k, c) ∈ kinds)
    (dur : String → Nat → Nat) (n : Nat) :
    KInv c (dur k) (projK k (schedRun dur n)) := by
  induction n with
  | zero =>
    have h0 : schedRun dur 0 = initSched := rfl
    rw [h0]
    refine ⟨by simp [projK, initSched], by simp [projK, initSched], ?_⟩
    simp [projK, initSched]
  | succ n ih =>
    rw [schedRun_succ, projK_tickAt hin]
    exact KInv_kstep c (dur k) k (baseTickMs * n) _ ih

/-- Helper: in a dispatch list whose starts are separated by at least the
cadence and whose durations never exceed it, at most one record covers any
given instant. -/
theorem gap_filter_le_one (c : Nat) (durK : Nat → Nat)
    (hb : ∀ t, durK t ≤ 1000 * c) (τ : Nat) :
    ∀ l : List (String × Nat × Nat),
      (∀ p ∈ l, p.2.2 = p.2.1 + durK p.2.1) →
      l.Pairwise (fun a b => b.2.1 + 1000 * c ≤ a.2.1) →
      (l.filter (fun p => decide (p.2.1 ≤ τ) && decide (τ < p.2.2))).length ≤ 1 := by
  intro l
  induction l with
  | nil =>
    intro _ _
    simp
  | cons a l ih =>
    intro hdur hpw
    rw [List.pairwise_cons] at hpw
    obtain ⟨hrel, hpw2⟩ := hpw
    by_cases ha : a.2.1 ≤ τ ∧ τ < a.2.2
    · have hfa : (decide (a.2.1 ≤ τ) && decide (τ < a.2.2)) = true := by
        simp [ha.1, ha.2]
      rw [List.filter_cons, if_pos hfa]
      have hnil : l.filter (fun p => decide (p.2.1 ≤ τ) && decide (τ < p.2.2)) = [] := by
        rw [List.filter_eq_nil_iff]
        intro p hp
        have h1 := hdur p (List.mem_cons_of_mem a hp)
        have h2 := hrel p hp
        have h3 := hb p.2.1
        simp only [Bool.and_eq_true, decide_eq_true_eq, not_and]
        intro hp1 hp2
        have h4 : p.2.2 ≤ a.2.1 := by omega
        have h5 := ha.1
        omega
      rw [hnil]
      simp
    · have hfa : ¬ ((decide (a.2.1 ≤ τ) && decide (τ < a.2.2)) = true) := by
        simpa [Bool.and_eq_true, decide_eq_true_eq] using ha
      rw [List.filter_cons, if_neg hfa]
      exact ih (fun p hp => hdur p (List.mem_cons_of_mem a hp)) hpw2

/-- C1 (amended): should_run stamps last_run at dispatch time, so two
dispatches of the same kind always start at least that kind's cadence
apart; hence whenever every sample of kind k completes within cadence[k],
at most one task of kind k is outstanding at any instant.  (Without that
bound the guarantee fails: the loop has no single-flight guard, as the
counterexample with a 3 s "net" sample shows.) -/
theorem per_kind_dispatch_serial_when_samples_fit_cadence
    (dur : String → Nat → Nat) (k : String) (c : Nat) (hin : (k, c) ∈ kinds)
    (hb : ∀ t, dur k t ≤ 1000 * c) (n τ : Nat) :
    outstanding k τ (schedRun dur n) ≤ 1 := by
  obtain ⟨hdur, hpw, _⟩ := KInv_schedRun hin dur n
  exact gap_filter_le_one c (dur k) hb τ ((projK k (schedRun dur n)).2) hdur hpw

/-- Witness for C1 at the "net" kind with instantaneous samples: three
ticks, probe instant 700 ms. -/
theorem per_kind_dispatch_serial_witness :
    ("net", 2) ∈ kinds
    ∧ outstanding "net" 700 (schedRun (fun _ _ => 0) 3) ≤ 1 :=
  ⟨by decide,
    per_kind_dispatch_serial_when_samples_fit_cadence (fun _ _ => 0) "net" 2
      (by decide) (fun _ => Nat.zero_le _) 3 700⟩
